import Mathlib

/-!
Shallow embedding of the aggregation core of `src/py/InventoryTracker.py`
(the `InventoryTracker` class) together with the configuration logic it
shares with `src/app.py`.

Modelling conventions:
* Python `dict` / `collections.defaultdict` objects are embedded as
  association lists (`List (String × _)`) with first-occurrence lookup;
  assignment overwrites the first binding in place or appends, matching
  insertion-order semantics of Python dicts.
* Python floats are embedded as exact rationals (`ℚ`); the builtin
  `round` (round half to even) is embedded as `pyround`.
* `np.mean` is embedded as `npmean`; every call site below is guarded so
  that the list is non-empty, mirroring the code's `if not ids: continue`
  and `self.confidence.get(sku, [0])` guards (on the empty list `np.mean`
  would return NaN, which the code never reaches from a reset store).
-/

namespace InvDet

/-- A detection event handed to the aggregation core by the external
detector/tracker for one frame: class code (the sku string produced by
`self.model.model.names[class_id]`), persistent track id, confidence. -/
structure Detection where
  class_code : String
  track_id : Int
  confidence : ℚ
deriving DecidableEq

/-- First-occurrence association-list lookup, embedding Python dict key
lookup (dict keys are unique, so first occurrence is the binding). -/
def dlookup {α : Type} : List (String × α) → String → Option α
  | [], _ => none
  | p :: rest, k => if p.1 = k then some p.2 else dlookup rest k

/-- `m.get(k, d)` and the read side of `defaultdict` indexing. -/
def lookupD {α : Type} (m : List (String × α)) (k : String) (d : α) : α :=
  (dlookup m k).getD d

/-- Python dict assignment `m[k] = v`: overwrite the binding of `k` in
place if present, else append a new binding (insertion order kept). -/
def updK {α : Type} : List (String × α) → String → α → List (String × α)
  | [], k, v => [(k, v)]
  | p :: rest, k, v => if p.1 = k then (k, v) :: rest else p :: updK rest k v

/-- The Aggregation Store: the four statistic fields that
`reset_output_stats` clears and `track_picture_stream` mutates
(`frame_count`, `overall_tracked_ids`, `class_appearances`,
`confidence`; lines 52-57 of `InventoryTracker.py`). -/
structure Store where
  frame_count : Nat
  overall_tracked_ids : List (String × List Int)
  class_appearances : List (String × Nat)
  confidence : List (String × List ℚ)
deriving DecidableEq

/-- `reset_output_stats` (lines 52-57): all four fields become empty/zero
regardless of the prior state. -/
def reset_output_stats : Store :=
  { frame_count := 0
    overall_tracked_ids := []
    class_appearances := []
    confidence := [] }

/-- Read `self.overall_tracked_ids[c]` (defaultdict of `set`, default
empty; the set is modelled as its insertion-ordered duplicate-free list). -/
def idsOf (s : Store) (c : String) : List Int :=
  lookupD s.overall_tracked_ids c []

/-- Read `self.class_appearances[c]` (defaultdict of `int`, default 0). -/
def appearOf (s : Store) (c : String) : Nat :=
  lookupD s.class_appearances c 0

/-- Read `self.confidence[c]` (defaultdict of `list`, default empty). -/
def confOf (s : Store) (c : String) : List ℚ :=
  lookupD s.confidence c []

/-- The deduplication block of `track_picture_stream` (lines 98-102) for
one detection: if the track id is already in the class's set do nothing;
otherwise insert it, increment `class_appearances[class_code]` and append
the confidence sample. -/
def dedupDetection (s : Store) (d : Detection) : Store :=
  if d.track_id ∈ idsOf s d.class_code then s
  else
    { s with
      overall_tracked_ids :=
        updK s.overall_tracked_ids d.class_code (idsOf s d.class_code ++ [d.track_id])
      class_appearances :=
        updK s.class_appearances d.class_code (appearOf s d.class_code + 1)
      confidence :=
        updK s.confidence d.class_code (confOf s d.class_code ++ [d.confidence]) }

/-- `track_picture_stream` restricted to its effect on the store: first
`self.frame_count += 1` (line 71), then the dedup block over this frame's
tracked detections in order (lines 78-102).  Annotation and the returned
live summary do not touch the four statistic fields. -/
def track_picture_stream (s : Store) (frame : List Detection) : Store :=
  frame.foldl dedupDetection { s with frame_count := s.frame_count + 1 }

/-- Process a sequence of frames one after the other. -/
def runFrames (s : Store) (frames : List (List Detection)) : Store :=
  frames.foldl track_picture_stream s

/-- The live summary returned by `track_picture_stream` (line 108):
classes with a non-empty id set mapped to their unique counts. -/
def liveSummary (s : Store) : List (String × Nat) :=
  s.overall_tracked_ids.filterMap
    (fun p => if p.2.length > 0 then some (p.1, p.2.length) else none)

/-- Python `int(round(x))` on an exact value: round half to even (the
builtin `round`, also what numpy uses), then the integer is exact. -/
def pyround (q : ℚ) : ℤ :=
  if q - ⌊q⌋ < 1/2 then ⌊q⌋
  else if 1/2 < q - ⌊q⌋ then ⌊q⌋ + 1
  else if ⌊q⌋ % 2 = 0 then ⌊q⌋ else ⌊q⌋ + 1

/-- `np.mean` on an exact list of rationals (call sites guard against the
empty list, where numpy would produce NaN). -/
def npmean (l : List ℚ) : ℚ :=
  l.sum / l.length

/-- One row of the summary dataframe of `get_output_stats`: the group
label (the column named by `label_mode`), the unique count, and the two
integer percentage columns `confidence(%)` and `frame_presence(%)`
(stringified integers in the code, exact integers here). -/
structure Row where
  label : String
  count : Nat
  conf : Int
  presence : Int
deriving DecidableEq

/-- The label catalog lookup `sku_lookup`: sku code → attribute record
(column name → value), as built from the catalog spreadsheet. -/
def Catalog : Type :=
  List (String × List (String × String))

/-- The row built for one `(sku, ids)` entry with non-empty ids in
`get_output_stats` (lines 126-139): resolve the display label through the
catalog with fallback to the sku itself, take `len(ids)` as count, the
rounded mean confidence percentage and the rounded
`class_appearances[sku] / frame_count` percentage. -/
def summaryRow (label_mode : String) (cat : Catalog) (s : Store)
    (sku : String) (ids : List Int) : Row :=
  let meta := lookupD cat sku []
  let key_value := if label_mode = "sku_code" then sku else lookupD meta label_mode sku
  let presence_percentage : ℚ := ((appearOf s sku : ℚ) / (s.frame_count : ℚ)) * 100
  let mean_confidence : ℚ := npmean ((dlookup s.confidence sku).getD [0]) * 100
  { label := key_value
    count := ids.length
    conf := pyround mean_confidence
    presence := pyround presence_percentage }

/-- Insert a string into a lexicographically sorted list. -/
def insertSorted (x : String) : List String → List String
  | [] => [x]
  | y :: ys => if x ≤ y then x :: y :: ys else y :: insertSorted x ys

/-- Sort strings lexicographically (pandas `groupby` sorts group keys). -/
def sortKeys (l : List String) : List String :=
  l.foldr insertSorted []

/-- The collapse step of `get_output_stats` (lines 143-148):
`output.groupby(label).agg(count="sum", percentages=round∘mean)` — one
record per distinct label, count summed over the group, and each
percentage column re-averaged as the unweighted arithmetic mean of the
per-row integer percentages, rounded again. -/
def groupRows (rows : List Row) : List Row :=
  (sortKeys (rows.map Row.label).dedup).map (fun k =>
    let grp := rows.filter (fun r => r.label = k)
    { label := k
      count := (grp.map Row.count).sum
      conf := pyround (npmean (grp.map (fun r => (r.conf : ℚ))))
      presence := pyround (npmean (grp.map (fun r => (r.presence : ℚ)))) })

/-- The `summary_data` list of `get_output_stats` (lines 121-139): one
row per entry of `overall_tracked_ids`, skipping entries whose id set is
empty (`continue`, line 125). -/
def summaryRows (label_mode : String) (cat : Catalog) (s : Store) : List Row :=
  s.overall_tracked_ids.filterMap (fun p =>
    if p.2 = [] then none else some (summaryRow label_mode cat s p.1 p.2))

/-- `get_output_stats` (lines 111-150) as a pure function of the store,
the configured label mode and the catalog: empty output when
`frame_count == 0`; otherwise one row per class with a non-empty id set,
then the groupby collapse whenever the label mode is not `sku_code` and
the dataframe is non-empty. -/
def get_output_stats (label_mode : String) (cat : Catalog) (s : Store) : List Row :=
  if s.frame_count = 0 then []
  else if label_mode ≠ "sku_code" ∧ summaryRows label_mode cat s ≠ []
  then groupRows (summaryRows label_mode cat s)
  else summaryRows label_mode cat s

/-- `defaultdict.__getitem__`: return the stored value, inserting the
default binding when the key is absent.  The only store mutation
reachable from `get_output_stats` is this insertion at line 130
(`self.class_appearances[sku]`). -/
def ddGetItem {α : Type} (m : List (String × α)) (k : String) (d : α) :
    α × List (String × α) :=
  match dlookup m k with
  | some v => (v, m)
  | none => (d, m ++ [(k, d)])

/-- One iteration of the summary loop of `get_output_stats` (lines
123-139) with the `defaultdict` read of line 130 threaded explicitly:
the accumulator carries the rows built so far and the current
`class_appearances` dict. -/
def summaryStep (label_mode : String) (cat : Catalog) (s : Store)
    (acc : List Row × List (String × Nat)) (p : String × List Int) :
    List Row × List (String × Nat) :=
  if p.2 = [] then acc
  else
    let meta := lookupD cat p.1 []
    let key_value := if label_mode = "sku_code" then p.1 else lookupD meta label_mode p.1
    let got := ddGetItem acc.2 p.1 0
    let presence_percentage : ℚ := ((got.1 : ℚ) / (s.frame_count : ℚ)) * 100
    let mean_confidence : ℚ := npmean ((dlookup s.confidence p.1).getD [0]) * 100
    (acc.1 ++ [{ label := key_value
                 count := p.2.length
                 conf := pyround mean_confidence
                 presence := pyround presence_percentage }],
     got.2)

/-- `get_output_stats` with the `defaultdict` side effect of line 130 made
explicit: returns the rows together with the store as it is after the
call (only `class_appearances` can have gained default-0 bindings). -/
def get_output_stats_run (label_mode : String) (cat : Catalog) (s : Store) :
    List Row × Store :=
  if s.frame_count = 0 then ([], s)
  else
    let folded :=
      s.overall_tracked_ids.foldl (summaryStep label_mode cat s) ([], s.class_appearances)
    let output :=
      if label_mode ≠ "sku_code" ∧ folded.1 ≠ [] then groupRows folded.1 else folded.1
    (output, { s with class_appearances := folded.2 })

/-- The recognized label modes, `self.valid_label_modes` (line 43). -/
def valid_label_modes : List String :=
  ["sku_code", "item_name", "brand", "sub_category", "category"]

/-- The label-mode validation of `InventoryTracker.__init__` (lines
44-48): keep a recognized mode, otherwise print a warning and fall back
to `"item_name"`. -/
def init_label_mode (label_mode : String) : String :=
  if label_mode ∈ valid_label_modes then label_mode else "item_name"

/-- The choices offered by the `label_mode` selectbox in `src/app.py`
(lines 88-91), assigned directly to `tracker.label_mode`. -/
def label_mode_options : List String :=
  ["item_name", "category", "sub_category", "brand", "sku_code"]

/-- The per-class bookkeeping invariant of the spec: appearance count,
unique-id set size and number of confidence samples agree (the id list is
additionally duplicate-free, so its length is its cardinality). -/
def StoreInv (s : Store) : Prop :=
  ∀ c, appearOf s c = (idsOf s c).length ∧
    (idsOf s c).length = (confOf s c).length ∧
    (idsOf s c).Nodup

/-- The set of track ids submitted for class `c` in a detection list. -/
def tracksIn (c : String) (ds : List Detection) : Finset Int :=
  ((ds.filter (fun d => d.class_code = c)).map Detection.track_id).toFinset

/-- The concrete 3-frame stream of the spec's concrete scenario. -/
def scenarioFrames : List (List Detection) :=
  [[⟨"sku_1", 7, 9/10⟩],
   [⟨"sku_1", 7, 85/100⟩, ⟨"sku_1", 8, 7/10⟩],
   []]

/-- Catalog for the grouping-collapse scenario: two skus sharing brand X. -/
def collapseCatalog : Catalog :=
  [("sku_1", [("brand", "X")]), ("sku_2", [("brand", "X")])]

/-- Single frame for the grouping-collapse scenario: one detection per
sku, confidences 0.8 and 0.6. -/
def collapseFrames : List (List Detection) :=
  [[⟨"sku_1", 1, 4/5⟩, ⟨"sku_2", 2, 3/5⟩]]

/-- The two per-sku rows the collapse scenario produces before grouping:
brand X with percentages 80 and 60, one unique item each, full presence. -/
def collapseRows : List Row :=
  [{ label := "X", count := 1, conf := 80, presence := 100 },
   { label := "X", count := 1, conf := 60, presence := 100 }]

/-- Single frame with two distinct track ids of the same class (the
frame-presence-above-100 scenario). -/
def doubleFrames : List (List Detection) :=
  [[⟨"sku_1", 1, 1/2⟩, ⟨"sku_1", 2, 1/2⟩]]

/-- Single stream submitting the pair `("sku_a", 1)` twice and the pair
`("sku_b", 1)` once: the same track id value under two class codes. -/
def sharedIdFrames : List (List Detection) :=
  [[⟨"sku_a", 1, 1/2⟩, ⟨"sku_b", 1, 1/2⟩, ⟨"sku_a", 1, 1/2⟩]]

/-- A store whose only class code is absent from the empty catalog (used
for the missing-catalog-fallback scenario). -/
def fallbackStore : Store :=
  { frame_count := 1
    overall_tracked_ids := [("sku_x", [5])]
    class_appearances := [("sku_x", 1)]
    confidence := [("sku_x", [1/2])] }

/-- Observational equality of stores: equal through every read the
program performs (`frame_count`, the id sets, the confidence lists, and
every default-aware `class_appearances` lookup).  Two stores related by
`ObsEq` may differ only in explicit default-0 bindings of
`class_appearances`, which no read can distinguish. -/
def ObsEq (s1 s2 : Store) : Prop :=
  s1.frame_count = s2.frame_count
  ∧ s1.overall_tracked_ids = s2.overall_tracked_ids
  ∧ s1.confidence = s2.confidence
  ∧ ∀ c, appearOf s1 c = appearOf s2 c

theorem dlookup_updK {α : Type} (m : List (String × α)) (k j : String) (v : α) :
    dlookup (updK m k v) j = if k = j then some v else dlookup m j := by
  induction m with
  | nil => simp [updK, dlookup]
  | cons p rest ih =>
    by_cases hp : p.1 = k
    · by_cases hj : k = j
      · simp [updK, dlookup, hp, hj]
      · have hpj : ¬ p.1 = j := fun h => hj (hp.symm.trans h)
        simp [updK, dlookup, hp, hj, hpj]
    · by_cases hj : p.1 = j
      · have hkj : ¬ k = j := fun h => hp (hj.trans h.symm)
        have hjk : ¬ j = k := fun h => hkj h.symm
        simp [updK, dlookup, hp, hj, hkj, hjk]
      · simp [updK, dlookup, hp, hj, ih]

theorem lookupD_append_self {α : Type} (m : List (String × α)) (k j : String) (d : α) :
    lookupD (m ++ [(k, d)]) j d = lookupD m j d := by
  induction m with
  | nil => by_cases h : k = j <;> simp [lookupD, dlookup, h]
  | cons p rest ih =>
    by_cases h : p.1 = j
    · simp [lookupD, dlookup, h]
    · simpa [lookupD, dlookup, h] using ih

theorem ddGetItem_fst {α : Type} (m : List (String × α)) (k : String) (d : α) :
    (ddGetItem m k d).1 = lookupD m k d := by
  unfold ddGetItem lookupD
  cases h : dlookup m k <;> simp [h]

theorem ddGetItem_snd {α : Type} (m : List (String × α)) (k j : String) (d : α) :
    lookupD (ddGetItem m k d).2 j d = lookupD m j d := by
  unfold ddGetItem
  cases h : dlookup m k with
  | some v => simp
  | none => simpa using lookupD_append_self m k j d

theorem idsOf_dedupDetection (s : Store) (d : Detection) (c : String) :
    idsOf (dedupDetection s d) c =
      if c = d.class_code ∧ d.track_id ∉ idsOf s d.class_code
      then idsOf s c ++ [d.track_id] else idsOf s c := by
  unfold dedupDetection
  by_cases hm : d.track_id ∈ idsOf s d.class_code
  · simp [hm]
  · simp only [if_neg hm]
    by_cases hc : c = d.class_code
    · subst hc
      simp only [idsOf, lookupD] at hm ⊢
      simp [dlookup_updK, hm]
    · simp [idsOf, lookupD, dlookup_updK, hc, Ne.symm hc, hm]

theorem appearOf_dedupDetection (s : Store) (d : Detection) (c : String) :
    appearOf (dedupDetection s d) c =
      if c = d.class_code ∧ d.track_id ∉ idsOf s d.class_code
      then appearOf s c + 1 else appearOf s c := by
  unfold dedupDetection
  by_cases hm : d.track_id ∈ idsOf s d.class_code
  · simp [hm]
  · simp only [if_neg hm]
    by_cases hc : c = d.class_code
    · subst hc
      simp [appearOf, lookupD, dlookup_updK, hm]
    · simp [appearOf, lookupD, dlookup_updK, hc, Ne.symm hc, hm]

theorem confOf_dedupDetection (s : Store) (d : Detection) (c : String) :
    confOf (dedupDetection s d) c =
      if c = d.class_code ∧ d.track_id ∉ idsOf s d.class_code
      then confOf s c ++ [d.confidence] else confOf s c := by
  unfold dedupDetection
  by_cases hm : d.track_id ∈ idsOf s d.class_code
  · simp [hm]
  · simp only [if_neg hm]
    by_cases hc : c = d.class_code
    · subst hc
      simp [confOf, lookupD, dlookup_updK, hm]
    · simp [confOf, lookupD, dlookup_updK, hc, Ne.symm hc, hm]

theorem frame_count_dedupDetection (s : Store) (d : Detection) :
    (dedupDetection s d).frame_count = s.frame_count := by
  unfold dedupDetection
  split <;> rfl

theorem storeInv_dedupDetection (s : Store) (d : Detection) (h : StoreInv s) :
    StoreInv (dedupDetection s d) := by
  intro c
  have h1 := idsOf_dedupDetection s d c
  have h2 := appearOf_dedupDetection s d c
  have h3 := confOf_dedupDetection s d c
  by_cases hc : c = d.class_code ∧ d.track_id ∉ idsOf s d.class_code
  · simp only [if_pos hc] at h1 h2 h3
    have hnotin : d.track_id ∉ idsOf s c := hc.1 ▸ hc.2
    refine ⟨?_, ?_, ?_⟩
    · rw [h1, h2, List.length_append, (h c).1, List.length_singleton]
    · rw [h1, h3, List.length_append, List.length_append, (h c).2.1]
      simp
    · rw [h1]
      exact List.Nodup.append (h c).2.2 (List.nodup_singleton _)
        (by simpa using hnotin)
  · simp only [if_neg hc] at h1 h2 h3
    rw [h1, h2, h3]
    exact h c

theorem storeInv_foldl (ds : List Detection) (s : Store) (h : StoreInv s) :
    StoreInv (ds.foldl dedupDetection s) := by
  induction ds generalizing s with
  | nil => exact h
  | cons d ds ih => exact ih _ (storeInv_dedupDetection s d h)

theorem storeInv_track_picture_stream (s : Store) (f : List Detection)
    (h : StoreInv s) : StoreInv (track_picture_stream s f) :=
  storeInv_foldl f _ h

theorem storeInv_runFrames (frames : List (List Detection)) (s : Store)
    (h : StoreInv s) : StoreInv (runFrames s frames) := by
  induction frames generalizing s with
  | nil => exact h
  | cons f fs ih => exact ih _ (storeInv_track_picture_stream s f h)

theorem storeInv_reset : StoreInv reset_output_stats := by
  intro c
  simp [appearOf, idsOf, confOf, lookupD, dlookup, reset_output_stats]

theorem frame_count_foldl (ds : List Detection) (s : Store) :
    (ds.foldl dedupDetection s).frame_count = s.frame_count := by
  induction ds generalizing s with
  | nil => rfl
  | cons d ds ih => rw [List.foldl_cons, ih, frame_count_dedupDetection]

theorem frame_count_track_picture_stream (s : Store) (f : List Detection) :
    (track_picture_stream s f).frame_count = s.frame_count + 1 := by
  unfold track_picture_stream
  rw [frame_count_foldl]

theorem frame_count_runFrames (frames : List (List Detection)) (s : Store) :
    (runFrames s frames).frame_count = s.frame_count + frames.length := by
  induction frames generalizing s with
  | nil => rfl
  | cons f fs ih =>
    show (runFrames (track_picture_stream s f) fs).frame_count = _
    rw [ih, frame_count_track_picture_stream, List.length_cons]
    omega

theorem tracksIn_append (c : String) (l1 l2 : List Detection) :
    tracksIn c (l1 ++ l2) = tracksIn c l1 ∪ tracksIn c l2 := by
  simp [tracksIn, List.filter_append, List.toFinset_append]

theorem tracksIn_cons (c : String) (d : Detection) (ds : List Detection) :
    tracksIn c (d :: ds) =
      if d.class_code = c then insert d.track_id (tracksIn c ds)
      else tracksIn c ds := by
  by_cases h : d.class_code = c <;> simp [tracksIn, List.filter_cons, h]

theorem idsOf_foldl_toFinset (ds : List Detection) (s : Store) (c : String) :
    (idsOf (ds.foldl dedupDetection s) c).toFinset
      = (idsOf s c).toFinset ∪ tracksIn c ds := by
  induction ds generalizing s with
  | nil => simp [tracksIn]
  | cons d ds ih =>
    rw [List.foldl_cons, ih, idsOf_dedupDetection, tracksIn_cons]
    by_cases hcd : d.class_code = c
    · rw [if_pos hcd]
      by_cases hm : d.track_id ∈ idsOf s d.class_code
      · have hno : ¬ (c = d.class_code ∧ d.track_id ∉ idsOf s d.class_code) := by
          simp [hcd.symm, hm]
        rw [if_neg hno]
        have hx : d.track_id ∈ idsOf s c := hcd ▸ hm
        apply Finset.ext
        intro x
        simp only [Finset.mem_union, Finset.mem_insert]
        constructor
        · rintro (h | h)
          · exact Or.inl h
          · exact Or.inr (Or.inr h)
        · rintro (h | rfl | h)
          · exact Or.inl h
          · exact Or.inl (List.mem_toFinset.mpr hx)
          · exact Or.inr h
      · rw [if_pos ⟨hcd.symm, hm⟩]
        apply Finset.ext
        intro x
        simp only [Finset.mem_union, Finset.mem_insert, List.mem_toFinset,
          List.mem_append, List.mem_singleton]
        tauto
    · rw [if_neg hcd, if_neg (fun h => hcd h.1.symm)]

theorem idsOf_bump (s : Store) (n : Nat) (c : String) :
    idsOf { s with frame_count := n } c = idsOf s c := rfl

theorem idsOf_runFrames_toFinset (frames : List (List Detection)) (s : Store)
    (c : String) :
    (idsOf (runFrames s frames) c).toFinset
      = (idsOf s c).toFinset ∪ tracksIn c frames.flatten := by
  induction frames generalizing s with
  | nil => simp [runFrames, tracksIn]
  | cons f fs ih =>
    show (idsOf (runFrames (track_picture_stream s f) fs) c).toFinset = _
    rw [ih, List.flatten_cons, tracksIn_append]
    unfold track_picture_stream
    rw [idsOf_foldl_toFinset, idsOf_bump, Finset.union_assoc]

theorem mem_insertSorted (x a : String) (l : List String) :
    a ∈ insertSorted x l ↔ a = x ∨ a ∈ l := by
  induction l with
  | nil => simp [insertSorted]
  | cons y ys ih =>
    by_cases h : x ≤ y
    · simp [insertSorted, h]
    · simp only [insertSorted, if_neg h, List.mem_cons, ih]
      tauto

theorem mem_sortKeys (a : String) (l : List String) :
    a ∈ sortKeys l ↔ a ∈ l := by
  induction l with
  | nil => simp [sortKeys]
  | cons y ys ih =>
    rw [show sortKeys (y :: ys) = insertSorted y (sortKeys ys) from rfl,
      mem_insertSorted, ih]
    simp

theorem dlookup_mem {α : Type} (m : List (String × α)) (k : String) (v : α)
    (h : dlookup m k = some v) : (k, v) ∈ m := by
  induction m with
  | nil => simp [dlookup] at h
  | cons p rest ih =>
    by_cases hp : p.1 = k
    · simp only [dlookup, if_pos hp] at h
      cases h
      rw [← hp]
      exact List.mem_cons_self _ _
    · simp only [dlookup, if_neg hp] at h
      exact List.mem_cons_of_mem _ (ih h)

theorem groupRows_mem (rows : List Row) (k : String)
    (h : k ∈ rows.map Row.label) :
    ({ label := k
       count := ((rows.filter (fun r => r.label = k)).map Row.count).sum
       conf := pyround (npmean
         ((rows.filter (fun r => r.label = k)).map (fun r => (r.conf : ℚ))))
       presence := pyround (npmean
         ((rows.filter (fun r => r.label = k)).map (fun r => (r.presence : ℚ)))) } : Row)
      ∈ groupRows rows := by
  unfold groupRows
  refine List.mem_map.mpr ⟨k, ?_, rfl⟩
  rw [mem_sortKeys, List.mem_dedup]
  exact h

theorem groupRows_labels (rows : List Row) :
    (groupRows rows).map Row.label = sortKeys (rows.map Row.label).dedup := by
  unfold groupRows
  rw [List.map_map]
  exact List.map_id _ ▸ rfl

theorem exists_label_groupRows (rows : List Row) (k : String)
    (h : k ∈ rows.map Row.label) :
    ∃ r ∈ groupRows rows, r.label = k :=
  ⟨_, groupRows_mem rows k h, rfl⟩

theorem summaryRow_label_fallback (mode : String) (cat : Catalog) (s : Store)
    (c : String) (ids : List Int)
    (h : dlookup (lookupD cat c []) mode = none) :
    (summaryRow mode cat s c ids).label = c := by
  unfold summaryRow
  simp only [lookupD] at h
  by_cases hm : mode = "sku_code" <;> simp [hm, lookupD, h]

theorem summaryFold (m : String) (cat : Catalog) (s : Store)
    (entries : List (String × List Int)) :
    ∀ (rows : List Row) (ca : List (String × Nat)),
    (∀ k, lookupD ca k 0 = appearOf s k) →
    (entries.foldl (summaryStep m cat s) (rows, ca)).1
        = rows ++ entries.filterMap (fun p =>
            if p.2 = [] then none else some (summaryRow m cat s p.1 p.2))
    ∧ ∀ k, lookupD (entries.foldl (summaryStep m cat s) (rows, ca)).2 k 0
        = appearOf s k := by
  induction entries with
  | nil =>
    intro rows ca hca
    exact ⟨by simp, hca⟩
  | cons p ps ih =>
    intro rows ca hca
    rw [List.foldl_cons]
    by_cases hp : p.2 = []
    · rw [show summaryStep m cat s (rows, ca) p = (rows, ca) from by
        simp [summaryStep, hp]]
      obtain ⟨h1, h2⟩ := ih rows ca hca
      exact ⟨by rw [h1]; simp [hp], h2⟩
    · have hstep : summaryStep m cat s (rows, ca) p
          = (rows ++ [summaryRow m cat s p.1 p.2], (ddGetItem ca p.1 0).2) := by
        simp [summaryStep, hp, summaryRow, ddGetItem_fst, hca p.1, appearOf]
      rw [hstep]
      have hca2 : ∀ k, lookupD (ddGetItem ca p.1 0).2 k 0 = appearOf s k :=
        fun k => (ddGetItem_snd ca p.1 k 0).trans (hca k)
      obtain ⟨h1, h2⟩ := ih (rows ++ [summaryRow m cat s p.1 p.2]) _ hca2
      refine ⟨?_, h2⟩
      rw [h1]
      simp [hp]

theorem lookupD_updK {α : Type} (m : List (String × α)) (k j : String)
    (v d : α) :
    lookupD (updK m k v) j d = if k = j then v else lookupD m j d := by
  unfold lookupD
  rw [dlookup_updK]
  split <;> rfl

theorem obsEq_dedupDetection {s1 s2 : Store} (h : ObsEq s1 s2) (d : Detection) :
    ObsEq (dedupDetection s1 d) (dedupDetection s2 d) := by
  obtain ⟨hf, ho, hc, ha⟩ := h
  have hids : ∀ c, idsOf s1 c = idsOf s2 c := by
    intro c
    unfold idsOf
    rw [ho]
  unfold dedupDetection
  rw [hids d.class_code]
  by_cases hm : d.track_id ∈ idsOf s2 d.class_code
  · simp only [if_pos hm]
    exact ⟨hf, ho, hc, ha⟩
  · simp only [if_neg hm]
    refine ⟨hf, ?_, ?_, ?_⟩
    · simp only [ho, hids]
    · unfold confOf
      simp only [hc, ho]
    · intro k
      unfold appearOf
      simp only [lookupD_updK]
      split
      · exact congrArg (· + 1) (ha d.class_code)
      · exact ha k

theorem obsEq_foldl {s1 s2 : Store} (h : ObsEq s1 s2) (ds : List Detection) :
    ObsEq (ds.foldl dedupDetection s1) (ds.foldl dedupDetection s2) := by
  induction ds generalizing s1 s2 with
  | nil => exact h
  | cons d ds ih => exact ih (obsEq_dedupDetection h d)

theorem obsEq_track_picture_stream {s1 s2 : Store} (h : ObsEq s1 s2)
    (f : List Detection) :
    ObsEq (track_picture_stream s1 f) (track_picture_stream s2 f) := by
  unfold track_picture_stream
  exact @obsEq_foldl { s1 with frame_count := s1.frame_count + 1 }
    { s2 with frame_count := s2.frame_count + 1 }
    ⟨by simp [h.1], h.2.1, h.2.2.1, h.2.2.2⟩ f

theorem obsEq_runFrames {s1 s2 : Store} (h : ObsEq s1 s2)
    (frames : List (List Detection)) :
    ObsEq (runFrames s1 frames) (runFrames s2 frames) := by
  induction frames generalizing s1 s2 with
  | nil => exact h
  | cons f fs ih => exact ih (obsEq_track_picture_stream h f)

theorem summaryRow_congr {s1 s2 : Store} (h : ObsEq s1 s2) (mode : String)
    (cat : Catalog) (sku : String) (ids : List Int) :
    summaryRow mode cat s1 sku ids = summaryRow mode cat s2 sku ids := by
  obtain ⟨hf, _, hc, ha⟩ := h
  unfold summaryRow
  rw [hf, hc, ha sku]

theorem get_output_stats_congr {s1 s2 : Store} (h : ObsEq s1 s2)
    (mode : String) (cat : Catalog) :
    get_output_stats mode cat s1 = get_output_stats mode cat s2 := by
  have hrows : summaryRows mode cat s1 = summaryRows mode cat s2 := by
    unfold summaryRows
    rw [h.2.1]
    apply List.filterMap_congr
    intro p _
    rw [summaryRow_congr h]
  unfold get_output_stats
  rw [h.1, hrows]

/-- C1: after any sequence of frame updates since the last reset — and
even mid-frame, after any prefix of a frame's detections — every class
code `c` has `class_appearances[c] = |unique_track_ids[c]| =
|confidence_samples[c]|` (the empty store after reset is the
`frames = []`, `ds = []` case). -/
theorem claim_C1_per_class_lockstep (frames : List (List Detection))
    (ds : List Detection) (c : String) :
    appearOf (ds.foldl dedupDetection (runFrames reset_output_stats frames)) c
        = (idsOf (ds.foldl dedupDetection (runFrames reset_output_stats frames)) c).toFinset.card
    ∧ (idsOf (ds.foldl dedupDetection (runFrames reset_output_stats frames)) c).toFinset.card
        = (confOf (ds.foldl dedupDetection (runFrames reset_output_stats frames)) c).length := by
  obtain ⟨h1, h2, h3⟩ :=
    storeInv_foldl ds _ (storeInv_runFrames frames _ storeInv_reset) c
  rw [List.toFinset_card_of_nodup h3]
  exact ⟨h1, h2⟩

/-- C2 counterexample: an unrecognized grouping key is not rejected at
configuration time — `__init__` accepts `"shelf_row"` and silently
configures the different, recognized key `"item_name"` instead, so no
`InvalidConfiguration` signal exists. -/
theorem claim_C2_counterexample :
    "shelf_row" ∉ valid_label_modes
    ∧ init_label_mode "shelf_row" = "item_name"
    ∧ "item_name" ≠ "shelf_row" :=
  ⟨by decide, by decide, by decide⟩

/-- C2 amended: configuring with a grouping key outside the recognized
set is not rejected; `__init__` falls back to `"item_name"` (printing a
warning), while every key offered by the app's selectbox is recognized
and kept unchanged. -/
theorem claim_C2_fallback_amended :
    (∀ m, m ∉ valid_label_modes → init_label_mode m = "item_name")
    ∧ ∀ m ∈ label_mode_options, init_label_mode m = m := by
  constructor
  · intro m hm
    unfold init_label_mode
    rw [if_neg hm]
  · intro m hm
    fin_cases hm <;> rfl

/-- C2 witness: the amended fallback evaluated at the unrecognized key
`"shelf_row"` and at the selectbox option `"brand"`. -/
theorem claim_C2_fallback_amended_witness :
    ("shelf_row" ∉ valid_label_modes ∧ init_label_mode "shelf_row" = "item_name")
    ∧ ("brand" ∈ label_mode_options ∧ init_label_mode "brand" = "brand") :=
  ⟨⟨by decide, claim_C2_fallback_amended.1 "shelf_row" (by decide)⟩,
   ⟨by decide, claim_C2_fallback_amended.2 "brand" (by decide)⟩⟩

/-- C3: dedup is keyed on the `(class_code, track_id)` pair — after any
stream, `class_appearances[c]` is the cardinality of the set of track
ids submitted for `c`, so N>1 submissions of one pair contribute exactly
1; and on the concrete stream where track id 1 is submitted twice under
`"sku_a"` and once under `"sku_b"`, each class independently records one
unique occurrence (with one confidence sample each), and nothing fails. -/
theorem claim_C3_dedup_pair_key :
    (∀ (frames : List (List Detection)) (c : String),
      appearOf (runFrames reset_output_stats frames) c
        = (tracksIn c frames.flatten).card)
    ∧ appearOf (runFrames reset_output_stats sharedIdFrames) "sku_a" = 1
    ∧ appearOf (runFrames reset_output_stats sharedIdFrames) "sku_b" = 1
    ∧ idsOf (runFrames reset_output_stats sharedIdFrames) "sku_a" = [1]
    ∧ idsOf (runFrames reset_output_stats sharedIdFrames) "sku_b" = [1]
    ∧ (confOf (runFrames reset_output_stats sharedIdFrames) "sku_a").length = 1
    ∧ (confOf (runFrames reset_output_stats sharedIdFrames) "sku_b").length = 1 := by
  refine ⟨?_, by decide, by decide, by decide, by decide, by decide, by decide⟩
  intro frames c
  obtain ⟨h1, _, h3⟩ := storeInv_runFrames frames _ storeInv_reset c
  rw [h1, ← List.toFinset_card_of_nodup h3, idsOf_runFrames_toFinset]
  simp [show idsOf reset_output_stats c = [] from rfl]

/-- C4: every frame update increments `frame_count` by exactly 1 (also
for frames with zero detections), so after K frames since the last reset
`frame_count = K`. -/
theorem claim_C4_frame_count :
    (∀ (s : Store) (f : List Detection),
      (track_picture_stream s f).frame_count = s.frame_count + 1)
    ∧ ∀ frames : List (List Detection),
      (runFrames reset_output_stats frames).frame_count = frames.length := by
  refine ⟨frame_count_track_picture_stream, ?_⟩
  intro frames
  rw [frame_count_runFrames]
  simp [reset_output_stats]

/-- C5: the groupby collapse produces, for every label occurring among
the per-class rows, exactly one record whose count is the sum over the
group and whose percentage fields are the rounded unweighted arithmetic
mean of the per-class integer percentages (a mean of means); and on the
concrete two-sku brand-X scenario (confidences 0.8 and 0.6, one
appearance each over one frame) the per-class rows carry 80 and 60 and
the collapsed record is `count=2`, `mean_confidence=70`,
`frame_presence=100`. -/
theorem claim_C5_grouping_collapse :
    (∀ (rows : List Row) (k : String), k ∈ rows.map Row.label →
      ({ label := k
         count := ((rows.filter (fun r => r.label = k)).map Row.count).sum
         conf := pyround (npmean
           ((rows.filter (fun r => r.label = k)).map (fun r => (r.conf : ℚ))))
         presence := pyround (npmean
           ((rows.filter (fun r => r.label = k)).map (fun r => (r.presence : ℚ)))) } : Row)
        ∈ groupRows rows)
    ∧ (∀ rows : List Row,
        (groupRows rows).map Row.label = sortKeys (rows.map Row.label).dedup)
    ∧ summaryRows "brand" collapseCatalog (runFrames reset_output_stats collapseFrames)
        = collapseRows
    ∧ get_output_stats "brand" collapseCatalog (runFrames reset_output_stats collapseFrames)
        = [{ label := "X", count := 2, conf := 70, presence := 100 }] := by
  refine ⟨groupRows_mem, groupRows_labels, ?_, ?_⟩
  · simp +decide only [summaryRows, summaryRow, runFrames, track_picture_stream,
      dedupDetection, idsOf, appearOf, confOf, lookupD, dlookup, updK,
      reset_output_stats, collapseFrames, collapseCatalog, collapseRows,
      List.foldl, List.filterMap]
    norm_num [npmean, pyround]
  · simp +decide only [get_output_stats, summaryRows, summaryRow, runFrames,
      track_picture_stream, dedupDetection, idsOf, appearOf, confOf, lookupD,
      dlookup, updK, reset_output_stats, collapseFrames, collapseCatalog,
      List.foldl, List.filterMap, groupRows, sortKeys, insertSorted,
      List.dedup, List.map, List.filter]
    norm_num [npmean, pyround]

/-- C5 witness: the general collapse record evaluated on the two
concrete brand-X rows with percentages 80 and 60. -/
theorem claim_C5_grouping_collapse_witness :
    ("X" ∈ collapseRows.map Row.label)
    ∧ ({ label := "X"
         count := ((collapseRows.filter (fun r => r.label = "X")).map Row.count).sum
         conf := pyround (npmean
           ((collapseRows.filter (fun r => r.label = "X")).map (fun r => (r.conf : ℚ))))
         presence := pyround (npmean
           ((collapseRows.filter (fun r => r.label = "X")).map (fun r => (r.presence : ℚ)))) } : Row)
        ∈ groupRows collapseRows :=
  ⟨by decide, claim_C5_grouping_collapse.1 collapseRows "X" (by decide)⟩

/-- C6: the spec's concrete 3-frame scenario — afterwards
`frame_count = 3`, `unique_track_ids["sku_1"] = {7, 8}` (recorded in
order `[7, 8]`), `class_appearances["sku_1"] = 2`,
`confidence_samples["sku_1"] = [0.9, 0.7]` in that order, and
summarizing by class code yields exactly one record with `count = 2`,
`mean_confidence = 80`, `frame_presence = 67`. -/
theorem claim_C6_concrete_scenario :
    (runFrames reset_output_stats scenarioFrames).frame_count = 3
    ∧ idsOf (runFrames reset_output_stats scenarioFrames) "sku_1" = [7, 8]
    ∧ (idsOf (runFrames reset_output_stats scenarioFrames) "sku_1").toFinset
        = ({7, 8} : Finset Int)
    ∧ appearOf (runFrames reset_output_stats scenarioFrames) "sku_1" = 2
    ∧ confOf (runFrames reset_output_stats scenarioFrames) "sku_1" = [9/10, 7/10]
    ∧ get_output_stats "sku_code" [] (runFrames reset_output_stats scenarioFrames)
        = [{ label := "sku_1", count := 2, conf := 80, presence := 67 }] := by
  refine ⟨by decide, by decide, by decide, by decide, ?_, ?_⟩
  · simp +decide only [confOf, lookupD, dlookup, runFrames, track_picture_stream,
      dedupDetection, idsOf, updK, reset_output_stats, scenarioFrames, List.foldl]
    norm_num
  · simp +decide only [get_output_stats, summaryRows, summaryRow, runFrames,
      track_picture_stream, dedupDetection, idsOf, appearOf, confOf, lookupD,
      dlookup, updK, reset_output_stats, scenarioFrames, List.foldl,
      List.filterMap]
    norm_num [npmean, pyround]

/-- C7: summarizing any store with `frame_count = 0` returns an empty
result, regardless of grouping key and catalog. -/
theorem claim_C7_empty_store (mode : String) (cat : Catalog) (s : Store)
    (h : s.frame_count = 0) : get_output_stats mode cat s = [] := by
  unfold get_output_stats
  rw [if_pos h]

/-- C7 witness: a zero-frame store with leftover per-class data still
summarizes to the empty result. -/
theorem claim_C7_empty_store_witness :
    (Store.mk 0 [("sku_1", [1])] [("sku_1", 1)] [("sku_1", [1/2])]).frame_count = 0
    ∧ get_output_stats "brand" []
        (Store.mk 0 [("sku_1", [1])] [("sku_1", 1)] [("sku_1", [1/2])]) = [] :=
  ⟨rfl, claim_C7_empty_store "brand" [] _ rfl⟩

/-- C8: a class code with a non-empty track-id set whose catalog entry is
missing (or lacks the grouping attribute) still yields a summary record,
labeled with the raw class code itself, under any grouping key — the
lookup degrades, it never fails. -/
theorem claim_C8_catalog_fallback (mode : String) (cat : Catalog) (s : Store)
    (c : String) (ids : List Int)
    (h0 : s.frame_count ≠ 0)
    (hids : dlookup s.overall_tracked_ids c = some ids)
    (hne : ids ≠ [])
    (hcat : dlookup (lookupD cat c []) mode = none) :
    ∃ r ∈ get_output_stats mode cat s, r.label = c := by
  have hrowmem : summaryRow mode cat s c ids ∈ summaryRows mode cat s := by
    refine List.mem_filterMap.mpr ⟨(c, ids), dlookup_mem _ _ _ hids, ?_⟩
    simp [hne]
  have hlab := summaryRow_label_fallback mode cat s c ids hcat
  unfold get_output_stats
  rw [if_neg h0]
  by_cases hcond : mode ≠ "sku_code" ∧ summaryRows mode cat s ≠ []
  · rw [if_pos hcond]
    exact exists_label_groupRows _ c (List.mem_map.mpr ⟨_, hrowmem, hlab⟩)
  · rw [if_neg hcond]
    exact ⟨_, hrowmem, hlab⟩

/-- C8 witness: summarizing `fallbackStore` by brand against the empty
catalog emits a record labeled with the raw class code `"sku_x"`. -/
theorem claim_C8_catalog_fallback_witness :
    (fallbackStore.frame_count ≠ 0
     ∧ dlookup fallbackStore.overall_tracked_ids "sku_x" = some [5]
     ∧ ([5] : List Int) ≠ []
     ∧ dlookup (lookupD ([] : Catalog) "sku_x" []) "brand" = none)
    ∧ ∃ r ∈ get_output_stats "brand" [] fallbackStore, r.label = "sku_x" :=
  ⟨⟨by decide, by decide, by decide, by decide⟩,
   claim_C8_catalog_fallback "brand" [] fallbackStore "sku_x" [5]
     (by decide) (by decide) (by decide) (by decide)⟩

/-- C9: summarization is read-only — its rows agree with the pure
summary function, the store after the call is observationally equal to
the store before it (its only physical change is `defaultdict` inserting
default-0 `class_appearances` bindings, which no read distinguishes),
and neither later reports nor later frame updates are altered. -/
theorem claim_C9_summarize_read_only (mode : String) (cat : Catalog) (s : Store) :
    (get_output_stats_run mode cat s).1 = get_output_stats mode cat s
    ∧ ObsEq (get_output_stats_run mode cat s).2 s
    ∧ (∀ (mode2 : String) (cat2 : Catalog),
        get_output_stats mode2 cat2 (get_output_stats_run mode cat s).2
          = get_output_stats mode2 cat2 s)
    ∧ ∀ frames : List (List Detection),
        ObsEq (runFrames (get_output_stats_run mode cat s).2 frames)
          (runFrames s frames) := by
  have key :
      (get_output_stats_run mode cat s).1 = get_output_stats mode cat s
      ∧ ObsEq (get_output_stats_run mode cat s).2 s := by
    by_cases h0 : s.frame_count = 0
    · simp [get_output_stats_run, get_output_stats, h0, ObsEq, appearOf]
    · obtain ⟨h1, h2⟩ :=
        summaryFold mode cat s s.overall_tracked_ids [] s.class_appearances
          (fun k => rfl)
      refine ⟨?_, ?_, ?_, ?_, ?_⟩
      · simp only [get_output_stats_run, get_output_stats, if_neg h0]
        rw [h1]
        simp [summaryRows]
      · simp only [get_output_stats_run, if_neg h0]
      · simp only [get_output_stats_run, if_neg h0]
      · simp only [get_output_stats_run, if_neg h0]
      · intro c
        simp only [get_output_stats_run, if_neg h0, appearOf]
        exact h2 c
  exact ⟨key.1, key.2,
    fun mode2 cat2 => get_output_stats_congr key.2 mode2 cat2,
    fun frames => obsEq_runFrames key.2 frames⟩

/-- C10: `frame_presence(%)` is not bounded by 100 — one frame holding
two detections of `"sku_1"` with two distinct track ids makes
`class_appearances = 2` against `frame_count = 1`, and the summary
reports a frame presence of 200. -/
theorem claim_C10_presence_over_100 :
    (runFrames reset_output_stats doubleFrames).frame_count = 1
    ∧ appearOf (runFrames reset_output_stats doubleFrames) "sku_1" = 2
    ∧ get_output_stats "sku_code" [] (runFrames reset_output_stats doubleFrames)
        = [{ label := "sku_1", count := 2, conf := 50, presence := 200 }] := by
  refine ⟨by decide, by decide, ?_⟩
  simp +decide only [get_output_stats, summaryRows, summaryRow, runFrames,
    track_picture_stream, dedupDetection, idsOf, appearOf, confOf, lookupD,
    dlookup, updK, reset_output_stats, doubleFrames, List.foldl, List.filterMap]
  norm_num [npmean, pyround]

end InvDet
